import Mathlib

/-!
Verification of the MES component-availability dashboard (src/MES/app.py).

The file embeds the row-classification, filtering, normalization and
aggregation logic of the program as executable Lean definitions and proves
the specification's claims about them.  Strings are modelled over their
character lists; Python's Unicode-only behaviours (non-ASCII numerics,
non-ASCII case mapping) are outside the inputs the claims range over, so
the ASCII fragment is used.
-/

namespace MES

/-- A cell of the uploaded table: `none` models a missing value (pandas NaN),
`some s` a textual value. -/
abbrev Cell := Option String

/-- Python `str(x)` applied to a cell: a missing value (NaN) renders as the
literal string "nan". -/
def pyStr (c : Cell) : String :=
  match c with
  | some s => s
  | none => "nan"

/-- Python `str.strip()`: remove leading and trailing whitespace. -/
def pyStripWS (s : String) : String :=
  String.mk (((s.data.dropWhile Char.isWhitespace).reverse.dropWhile Char.isWhitespace).reverse)

/-- `s.replace("-", "").replace(" ", "")`: remove every dash and space. -/
def stripDashSpace (s : String) : String :=
  String.mk (s.data.filter (fun c => !(c == '-' || c == ' ')))

/-- Python `str.isnumeric()` on the ASCII fragment: non-empty and every
character a decimal digit. -/
def isnumericPy (s : String) : Bool :=
  !s.data.isEmpty && s.data.all Char.isDigit

/-- The 4.1 heading predicate of `assign_categories` (app.py line 14), applied
to the raw Bom Qty cell: the row is a category heading when
`str(cell).strip().replace("-", "").replace(" ", "").isnumeric()` is false. -/
def isHeadingCell (c : Cell) : Bool :=
  !isnumericPy (stripDashSpace (pyStripWS (pyStr c)))

/-- Strip one leading sign character, as Python number parsing does. -/
def stripSign (l : List Char) : List Char :=
  match l with
  | [] => []
  | c :: r => if c == '+' || c == '-' then r else c :: r

/-- Exponent part of a float literal: empty, or `e`/`E`, an optional sign and
at least one digit. -/
def expOk (l : List Char) : Bool :=
  match l with
  | [] => true
  | c :: r =>
    if c == 'e' || c == 'E' then
      let r2 := stripSign r
      !r2.isEmpty && r2.all Char.isDigit
    else false

/-- Unsigned mantissa followed by an optional exponent: digits, digits dot
optional digits, or dot digits, then `expOk`. -/
def mantThenExp (l : List Char) : Bool :=
  let d1 := l.takeWhile Char.isDigit
  match l.dropWhile Char.isDigit with
  | [] => !d1.isEmpty
  | c :: r2 =>
    if c == '.' then
      let d2 := r2.takeWhile Char.isDigit
      (!d1.isEmpty || !d2.isEmpty) && expOk (r2.dropWhile Char.isDigit)
    else !d1.isEmpty && expOk (c :: r2)

/-- The 4.2 numeric predicate of the drop-heading filter (app.py line 62):
`pd.to_numeric(s, errors="coerce")` succeeds, i.e. after trimming surrounding
whitespace the text is an optionally signed decimal or float literal. -/
def toNumericOk (s : String) : Bool :=
  mantThenExp (stripSign (pyStripWS s).data)

/-- Keep predicate of the row filter on a Bom Qty cell: a missing cell coerces
to NaN and is dropped; a textual cell is kept when it parses as a number. -/
def keepRow (c : Cell) : Bool :=
  match c with
  | none => false
  | some s => toNumericOk s

/-- One record of the uploaded table, projected to the fields
`assign_categories` and the downstream pipeline read. -/
structure Row where
  sectionCol : Cell
  nomenclature : Cell
  bomQty : Cell
  stock : Cell
  availableUpTo : Cell
  testVals : List Cell
deriving Repr, DecidableEq

/-- Uppercased, trimmed rendering of a Nomenclature cell, as computed on a
heading row: `str(row.get('Nomenclature', '')).strip().upper()`. -/
def headingName (c : Cell) : String :=
  String.mk ((pyStripWS (pyStr c)).data.map Char.toUpper)

/-- Loop body of `assign_categories` (app.py lines 9-18): scan the rows with
the mutable `category` accumulator; a heading row updates the accumulator to
its uppercased trimmed Nomenclature and emits `none`, a data row emits the
current accumulator. -/
def assignCategoriesAux (cat : Option String) : List Row → List (Option String)
  | [] => []
  | r :: rs =>
    if isHeadingCell r.bomQty then
      none :: assignCategoriesAux (some (headingName r.nomenclature)) rs
    else
      cat :: assignCategoriesAux cat rs

/-- `assign_categories` (app.py lines 5-21): the derived Category column, one
entry per row, accumulator initially `None`. -/
def assign_categories (rows : List Row) : List (Option String) :=
  assignCategoriesAux none rows

/-- Whether the row at index `j` is a category heading (`false` out of range). -/
def headingAt (rows : List Row) (j : Nat) : Bool :=
  match rows.get? j with
  | some r => isHeadingCell r.bomQty
  | none => false

/-- Uppercased trimmed Nomenclature of the row at index `j`. -/
def headingLabel (rows : List Row) (j : Nat) : Option String :=
  (rows.get? j).map (fun r => headingName r.nomenclature)

/-- Index of the most recent heading row strictly above index `i`: check
`i - 1`, otherwise recurse. -/
def lastHeadingIdx (rows : List Row) : Nat → Option Nat
  | 0 => none
  | n + 1 => if headingAt rows n then some n else lastHeadingIdx rows n

/-- Specified category of the row at index `i`: the uppercased trimmed
Nomenclature of the most recent heading row above it, undefined when no
heading precedes it. -/
def catSpec (rows : List Row) (i : Nat) : Option String :=
  (lastHeadingIdx rows i).bind (headingLabel rows)

/-- The drop-heading filter (app.py line 62):
`df[pd.to_numeric(df["Bom Qty"], errors="coerce").notna()]`. -/
def dropHeadingRows (rows : List Row) : List Row :=
  rows.filter (fun r => keepRow r.bomQty)

/-- First maximal run of decimal digits of a character list, as matched by the
regular expression group of digits in `str.extract` (app.py line 67). -/
def extractDigits : List Char → Option (List Char)
  | [] => none
  | c :: cs =>
    if c.isDigit then some (c :: cs.takeWhile Char.isDigit) else extractDigits cs

/-- Decimal value of a digit run. -/
def digitsToNat (l : List Char) : Nat :=
  l.foldl (fun a c => 10 * a + (c.toNat - 48)) 0

/-- Normalization of an Available Up To cell (app.py lines 65-70):
`pd.to_numeric(cell.astype(str).str.extract(digit-run), errors="coerce")` —
the integer value of the first digit run of the cell's text form, missing when
the text has no digit. -/
def availUpToNorm (c : Cell) : Option Nat :=
  (extractDigits (pyStr c).data).map digitsToNat

/-- Per-row count of Test-Stage cells equal to "A":
`df[test_columns].apply(lambda row: (row == "A").sum(), axis=1)`
(app.py line 79), on the row's projection to the Test-Stage columns. -/
def countA (l : List Cell) : Nat :=
  (l.filter (fun v => v == some "A")).length

/-- Per-row count of Test-Stage cells equal to "S" (app.py line 110). -/
def countS (l : List Cell) : Nat :=
  (l.filter (fun v => v == some "S")).length

/-- Per-column total of "A" over a row-major matrix of Test-Stage cells:
`(df[test_columns] == "A").sum()` for column index `j` (app.py line 126). -/
def colTotalA (m : List (List Cell)) (j : Nat) : Nat :=
  (m.map (fun r => if r.get? j == some (some "A") then 1 else 0)).sum

/-- Sum over all rows of the per-row Available In value. -/
def sumAvailableIn (m : List (List Cell)) : Nat :=
  (m.map countA).sum

/-- Sum over the first `n` column indices of the per-column "A" totals. -/
def sumColTotalsA (m : List (List Cell)) (n : Nat) : Nat :=
  ((List.range n).map (colTotalA m)).sum

/-- Whether `pat` occurs at the start of `l`. -/
def startsWithChars : List Char → List Char → Bool
  | _, [] => true
  | [], _ :: _ => false
  | a :: as, b :: bs => a == b && startsWithChars as bs

/-- Whether `pat` occurs somewhere inside `l` (Python's `pat in s`). -/
def hasSubChars : List Char → List Char → Bool
  | [], pat => pat.isEmpty
  | a :: as, pat => startsWithChars (a :: as) pat || hasSubChars as pat

/-- Python's substring test `pat in s`. -/
def strContainsSub (s pat : String) : Bool :=
  hasSubChars s.data pat.data

/-- Test-Stage column detection (app.py lines 46 and 77):
`[col for col in df.columns if "(A/I/F)" in col]`. -/
def testColumns (cols : List String) : List String :=
  cols.filter (fun c => strContainsSub c "(A/I/F)")

/-- The uploaded table after header cleanup: the normalized column names and
the rows, each row a cell list parallel to the columns. -/
structure Table where
  cols : List String
  rows : List (List Cell)
deriving Repr, DecidableEq

/-- Column access `df[c]`: the cell list of the named column, or the pandas
`KeyError` the lookup raises when the column is absent.  The source performs
these accesses directly, with no presence check beforehand. -/
def getColumn (t : Table) (c : String) : Except String (List Cell) :=
  match t.cols.findIdx? (fun d => d == c) with
  | some j => Except.ok (t.rows.map (fun r => (r.get? j).getD none))
  | none => Except.error ("KeyError: " ++ c)

/-- The named columns the pipeline reads, in source order: the sidebar filter
(app.py line 42), the drop-heading filter (line 62), the Available Up To
normalization (line 65), the preview table (line 74) and the critical-set
computation near the end. -/
def columnAccessOrder : List String :=
  ["Section", "Bom Qty", "Available Up To", "Nomenclature", "Stock"]

/-- Run the pipeline's named-column accesses in source order, stopping at the
first pandas `KeyError`, exactly as the unguarded `df[...]` lookups do. -/
def runColumnAccesses (t : Table) : Except String Unit :=
  columnAccessOrder.foldl
    (fun acc c => acc.bind (fun _ => (getColumn t c).map (fun _ => ())))
    (Except.ok ())

/-- Projection `df[test_columns]` of a table to its Test-Stage columns, as a
row-major matrix of cells. -/
def projTestCols (t : Table) : List (List Cell) :=
  t.rows.map (fun r =>
    (testColumns t.cols).filterMap (fun c =>
      (t.cols.findIdx? (fun d => d == c)).map (fun j => (r.get? j).getD none)))

/-- Grand total of "A" over all Test-Stage cells:
`(df[test_columns] == "A").sum().sum()` (app.py line 138). -/
def totalA (t : Table) : Nat :=
  ((projTestCols t).map countA).sum

/-- Grand total of "S" over all Test-Stage cells (app.py line 139). -/
def totalS (t : Table) : Nat :=
  ((projTestCols t).map countS).sum

/-- An uploaded table lacking the required "Section" column. -/
def tMissingSection : Table :=
  { cols := ["Nomenclature", "Bom Qty", "Stock", "Available Up To"],
    rows := [[some "ENGINE", some "--", none, none],
             [some "BOLT", some "4", some "10", some "AP 25"]] }

/-- An uploaded table in which no column name contains "(A/I/F)", so zero
Test-Stage columns are detected. -/
def tNoTestCols : Table :=
  { cols := ["Section", "Nomenclature", "Bom Qty", "Stock", "Available Up To"],
    rows := [[some "S1", some "BOLT", some "4", some "10", some "AP 25"],
             [some "S1", some "NUT", some "2", some "0", some "AP 3"]] }

/-- A two-row example: a heading row "Engine" followed by a data row. -/
def rowsHeadingEx : List Row :=
  [{ sectionCol := some "S1", nomenclature := some "Engine", bomQty := some "--",
     stock := none, availableUpTo := none, testVals := [] },
   { sectionCol := some "S1", nomenclature := some "Bolt", bomQty := some "2",
     stock := some "5", availableUpTo := some "AP 3", testVals := [some "A"] }]

/-- A two-row example whose heading row has a missing Nomenclature cell. -/
def rowsNanEx : List Row :=
  [{ sectionCol := none, nomenclature := none, bomQty := some "-",
     stock := none, availableUpTo := none, testVals := [] },
   { sectionCol := none, nomenclature := some "Nut", bomQty := some "7",
     stock := some "1", availableUpTo := none, testVals := [] }]

/-- A two-by-two example matrix of Test-Stage cells. -/
def matAvailEx : List (List Cell) :=
  [[some "A", some "S"], [some "A", some "A"]]

/-- A decimal digit is not whitespace. -/
theorem isWhitespace_eq_false_of_isDigit (c : Char) (h : c.isDigit = true) :
    c.isWhitespace = false := by
  cases hq : c.isWhitespace with
  | false => rfl
  | true =>
    exfalso
    have hc : ((c = ' ' ∨ c = '\t') ∨ c = '\r') ∨ c = '\n' := by
      simpa [Char.isWhitespace] using hq
    rcases hc with ((h1 | h1) | h1) | h1 <;> subst h1 <;> exact absurd h (by decide)

/-- A decimal digit is neither a dash nor a space. -/
theorem not_dash_space_of_isDigit (c : Char) (h : c.isDigit = true) :
    (!(c == '-' || c == ' ')) = true := by
  by_cases h1 : c = '-'
  · subst h1; exact absurd h (by decide)
  · by_cases h2 : c = ' '
    · subst h2; exact absurd h (by decide)
    · simp [h1, h2]

/-- A decimal digit is not a sign character. -/
theorem not_sign_of_isDigit (c : Char) (h : c.isDigit = true) :
    (c == '+' || c == '-') = false := by
  by_cases h1 : c = '+'
  · subst h1; exact absurd h (by decide)
  · by_cases h2 : c = '-'
    · subst h2; exact absurd h (by decide)
    · simp [h1, h2]

theorem dropWhile_eq_self_of_all {p : Char → Bool} :
    ∀ l : List Char, (∀ c ∈ l, p c = false) → l.dropWhile p = l
  | [], _ => rfl
  | c :: cs, h => by
    have hc : p c = false := h c (List.mem_cons_self c cs)
    simp [List.dropWhile, hc]

theorem takeWhile_eq_self_of_all {p : Char → Bool} :
    ∀ l : List Char, (∀ c ∈ l, p c = true) → l.takeWhile p = l
  | [], _ => rfl
  | c :: cs, h => by
    have hc : p c = true := h c (List.mem_cons_self c cs)
    simp only [List.takeWhile, hc, if_true]
    exact congrArg (c :: ·) (takeWhile_eq_self_of_all cs (fun d hd => h d (List.mem_cons_of_mem c hd)))

theorem dropWhile_eq_nil_of_all {p : Char → Bool} :
    ∀ l : List Char, (∀ c ∈ l, p c = true) → l.dropWhile p = []
  | [], _ => rfl
  | c :: cs, h => by
    have hc : p c = true := h c (List.mem_cons_self c cs)
    simp only [List.dropWhile, hc, if_true]
    exact dropWhile_eq_nil_of_all cs (fun d hd => h d (List.mem_cons_of_mem c hd))

theorem takeWhile_eq_nil_of_head {p : Char → Bool} (l : List Char)
    (h : ∀ c, l.head? = some c → p c = false) : l.takeWhile p = [] := by
  cases l with
  | nil => rfl
  | cons c cs => simp [List.takeWhile, h c rfl]

theorem dropWhile_eq_self_of_head {p : Char → Bool} (l : List Char)
    (h : ∀ c, l.head? = some c → p c = false) : l.dropWhile p = l := by
  cases l with
  | nil => rfl
  | cons c cs => simp [List.dropWhile, h c rfl]

theorem takeWhile_append_of_all {p : Char → Bool} :
    ∀ (l t : List Char), (∀ c ∈ l, p c = true) →
      (l ++ t).takeWhile p = l ++ t.takeWhile p
  | [], t, _ => rfl
  | c :: cs, t, h => by
    have hc : p c = true := h c (List.mem_cons_self c cs)
    simp only [List.cons_append, List.takeWhile, hc, if_true]
    exact congrArg (c :: ·)
      (takeWhile_append_of_all cs t (fun d hd => h d (List.mem_cons_of_mem c hd)))

/-- If every character of a word fails the whitespace test, Python strip
leaves the word unchanged. -/
theorem pyStripWS_eq_self_of_no_ws (s : String)
    (h : ∀ c ∈ s.data, c.isWhitespace = false) : pyStripWS s = s := by
  unfold pyStripWS
  rw [dropWhile_eq_self_of_all s.data h]
  rw [dropWhile_eq_self_of_all s.data.reverse (fun c hc => h c (List.mem_reverse.mp hc))]
  simp

/-- If the dash-space strip of a word is empty, every character of the word is
a dash or a space. -/
theorem all_dash_space_of_strip_empty (s : String) (h : stripDashSpace s = "") :
    ∀ c ∈ s.data, (c == '-' || c == ' ') = true := by
  intro c hc
  have hdata : s.data.filter (fun c => !(c == '-' || c == ' ')) = [] := by
    have := congrArg String.data h
    simpa [stripDashSpace] using this
  by_contra hne
  have hkeep : (!(c == '-' || c == ' ')) = true := by
    cases hb : (c == '-' || c == ' ') with
    | false => rfl
    | true => exact absurd hb hne
  have : c ∈ s.data.filter (fun c => !(c == '-' || c == ' ')) :=
    List.mem_filter.mpr ⟨hc, hkeep⟩
  rw [hdata] at this
  exact absurd this (List.not_mem_nil c)

/-- Characters survive `dropWhile`. -/
theorem mem_of_mem_dropWhile {p : Char → Bool} :
    ∀ (l : List Char) (c : Char), c ∈ l.dropWhile p → c ∈ l
  | [], c, hc => by simp at hc
  | a :: r, c, hc => by
    rw [List.dropWhile_cons] at hc
    by_cases hp : p a = true
    · rw [if_pos hp] at hc
      exact List.mem_cons_of_mem a (mem_of_mem_dropWhile r c hc)
    · rw [if_neg hp] at hc
      exact hc

/-- The head given by `head?` is a member of the list. -/
theorem mem_of_head?_eq {α : Type} (l : List α) (c : α) (h : l.head? = some c) :
    c ∈ l := by
  cases l with
  | nil => simp at h
  | cons a r =>
    simp only [List.head?, Option.some.injEq] at h
    exact h ▸ List.mem_cons_self a r

/-- Characters survive `stripSign`. -/
theorem mem_of_mem_stripSign (l : List Char) (c : Char) (hc : c ∈ stripSign l) :
    c ∈ l := by
  cases l with
  | nil => exact absurd hc (List.not_mem_nil c)
  | cons a r =>
    have hdef : stripSign (a :: r) = if a == '+' || a == '-' then r else a :: r := rfl
    rw [hdef] at hc
    by_cases ha : (a == '+' || a == '-') = true
    · rw [if_pos ha] at hc
      exact List.mem_cons_of_mem a hc
    · rw [if_neg ha] at hc
      exact hc

/-- A character list with no digit fails the mantissa grammar. -/
theorem mantThenExp_eq_false_of_no_digit :
    ∀ l : List Char, (∀ c ∈ l, c.isDigit = false) → mantThenExp l = false
  | [], _ => rfl
  | a :: r, h => by
    have ha : a.isDigit = false := h a (List.mem_cons_self a r)
    have hr : r.takeWhile Char.isDigit = [] :=
      takeWhile_eq_nil_of_head r
        (fun d hd => h d (List.mem_cons_of_mem a (mem_of_head?_eq r d hd)))
    unfold mantThenExp
    rw [List.takeWhile_cons, List.dropWhile_cons, ha]
    simp only [Bool.false_eq_true, if_false]
    by_cases hdot : (a == '.') = true
    · simp only [hdot, if_true, hr]
      rfl
    · simp only [hdot, if_false]
      rfl

/-- No digit after trimming, no parse: `pd.to_numeric` fails on text whose
trimmed form is digit-free. -/
theorem toNumericOk_eq_false_of_no_digit (s : String)
    (h : ∀ c ∈ (pyStripWS s).data, c.isDigit = false) : toNumericOk s = false := by
  unfold toNumericOk
  exact mantThenExp_eq_false_of_no_digit _
    (fun c hc => h c (mem_of_mem_stripSign _ c hc))

/-- A dash or a space is not a decimal digit. -/
theorem not_digit_of_dash_space (c : Char) (h : (c == '-' || c == ' ') = true) :
    c.isDigit = false := by
  rcases Bool.or_eq_true_iff.mp h with h1 | h1 <;>
    · have hc := eq_of_beq h1
      subst hc
      decide

/-- Rebuilding a string from its characters is the identity. -/
theorem mk_data_eq (s : String) : String.mk s.data = s := rfl

/-- When the Bom Qty text strips to the empty string the heading predicate
holds, because the empty string is not numeric. -/
theorem isHeadingCell_of_strip_empty (c : Cell)
    (h : stripDashSpace (pyStripWS (pyStr c)) = "") : isHeadingCell c = true := by
  unfold isHeadingCell
  rw [h]
  decide

theorem headingAt_cons_succ (r : Row) (rs : List Row) (i : Nat) :
    headingAt (r :: rs) (i + 1) = headingAt rs i := rfl

theorem headingLabel_cons_succ (r : Row) (rs : List Row) (j : Nat) :
    headingLabel (r :: rs) (j + 1) = headingLabel rs j := rfl

theorem lastHeadingIdx_succ (rows : List Row) (n : Nat) :
    lastHeadingIdx rows (n + 1) =
      if headingAt rows n then some n else lastHeadingIdx rows n := rfl

/-- Shifting the most-recent-heading index across a cons. -/
theorem lastHeadingIdx_cons_succ (r : Row) (rs : List Row) :
    ∀ i : Nat,
      lastHeadingIdx (r :: rs) (i + 1) =
        (match lastHeadingIdx rs i with
         | some j => some (j + 1)
         | none => if isHeadingCell r.bomQty then some 0 else none)
  | 0 => rfl
  | i + 1 => by
    rw [lastHeadingIdx_succ (r :: rs) (i + 1), headingAt_cons_succ,
      lastHeadingIdx_cons_succ r rs i, lastHeadingIdx_succ rs i]
    by_cases h : headingAt rs i = true
    · simp [h]
    · simp [h]

/-- Indexed characterization of the `assign_categories` scan: entry `i` is
`none` on a heading row, and otherwise the label of the most recent heading
row above it, falling back to the incoming accumulator. -/
theorem assignCategoriesAux_get :
    ∀ (rows : List Row) (cat : Option String) (i : Nat), i < rows.length →
      (assignCategoriesAux cat rows).get? i =
        some (if headingAt rows i then none
              else match lastHeadingIdx rows i with
                   | some j => headingLabel rows j
                   | none => cat)
  | [], _, i, hi => absurd hi (by simp)
  | r :: rs, cat, 0, _ => by
    by_cases h : isHeadingCell r.bomQty
    · simp [assignCategoriesAux, h, headingAt, lastHeadingIdx]
    · simp [assignCategoriesAux, h, headingAt, lastHeadingIdx]
  | r :: rs, cat, i + 1, hi => by
    have hn : i < rs.length := Nat.lt_of_succ_lt_succ (by simpa using hi)
    rw [headingAt_cons_succ, lastHeadingIdx_cons_succ r rs i]
    by_cases h : isHeadingCell r.bomQty
    · have hcons : assignCategoriesAux cat (r :: rs) =
          none :: assignCategoriesAux (some (headingName r.nomenclature)) rs := by
        simp [assignCategoriesAux, h]
      rw [hcons, List.get?_cons_succ,
        assignCategoriesAux_get rs (some (headingName r.nomenclature)) i hn]
      cases hli : lastHeadingIdx rs i with
      | some j => simp [headingLabel_cons_succ]
      | none => simp [h, headingLabel]
    · have hcons : assignCategoriesAux cat (r :: rs) =
          cat :: assignCategoriesAux cat rs := by
        simp [assignCategoriesAux, h]
      rw [hcons, List.get?_cons_succ, assignCategoriesAux_get rs cat i hn]
      cases hli : lastHeadingIdx rs i with
      | some j => simp [headingLabel_cons_succ]
      | none => simp [h]

/-- The most recent heading below `j` is `i` when `i` is a heading and no
index strictly between them is. -/
theorem lastHeadingIdx_eq_of_between (rows : List Row) (i : Nat)
    (hhead : headingAt rows i = true) :
    ∀ j : Nat, i < j → (∀ k, i < k → k < j → headingAt rows k = false) →
      lastHeadingIdx rows j = some i
  | 0, hij, _ => absurd hij (Nat.not_lt_zero i)
  | n + 1, hij, hb => by
    rw [lastHeadingIdx_succ]
    by_cases hin : i = n
    · subst hin
      simp [hhead]
    · have hlt : i < n := Nat.lt_of_le_of_ne (Nat.le_of_lt_succ hij) hin
      rw [hb n hlt (Nat.lt_succ_self n)]
      simp only [Bool.false_eq_true, if_false]
      exact lastHeadingIdx_eq_of_between rows i hhead n hlt
        (fun k hk1 hk2 => hb k hk1 (Nat.lt_succ_of_lt hk2))

/-- Digit extraction skips a digit-free leading segment. -/
theorem extractDigits_append_of_no_digit :
    ∀ (a t : List Char), (∀ c ∈ a, c.isDigit = false) →
      extractDigits (a ++ t) = extractDigits t
  | [], _, _ => rfl
  | c :: cs, t, h => by
    have hc : c.isDigit = false := h c (List.mem_cons_self c cs)
    simp only [List.cons_append, extractDigits, hc, Bool.false_eq_true, if_false]
    exact extractDigits_append_of_no_digit cs t
      (fun d hd => h d (List.mem_cons_of_mem c hd))

/-- Digit extraction fails on a digit-free list. -/
theorem extractDigits_eq_none_of_no_digit :
    ∀ l : List Char, (∀ c ∈ l, c.isDigit = false) → extractDigits l = none
  | [], _ => rfl
  | c :: cs, h => by
    have hc : c.isDigit = false := h c (List.mem_cons_self c cs)
    simp only [extractDigits, hc, Bool.false_eq_true, if_false]
    exact extractDigits_eq_none_of_no_digit cs
      (fun d hd => h d (List.mem_cons_of_mem c hd))

/-- Splitting a sum of pointwise sums. -/
theorem sum_map_add {α : Type} (l : List α) (f g : α → Nat) :
    (l.map (fun x => f x + g x)).sum = (l.map f).sum + (l.map g).sum := by
  induction l with
  | nil => rfl
  | cons a t ih =>
    simp only [List.map_cons, List.sum_cons, ih]
    omega

/-- The per-row "A" count is the sum over column indices of the indicator of
an "A" at that index. -/
theorem countA_eq_sum_range :
    ∀ r : List Cell,
      ((List.range r.length).map
        (fun j => if r.get? j == some (some "A") then 1 else 0)).sum = countA r
  | [] => rfl
  | v :: vs => by
    have ih := countA_eq_sum_range vs
    rw [List.length_cons, List.range_succ_eq_map, List.map_cons, List.sum_cons,
      List.map_map]
    have hcomp :
        ((fun j => if (v :: vs).get? j == some (some "A") then 1 else 0) ∘ Nat.succ) =
          (fun j => if vs.get? j == some (some "A") then 1 else 0) := by
      funext j
      rfl
    rw [hcomp, ih]
    show (if v == some "A" then 1 else 0) + countA vs = countA (v :: vs)
    unfold countA
    rw [List.filter_cons]
    cases hv : (v == some "A") with
    | true =>
      simp only [hv, if_true, List.length_cons]
      omega
    | false =>
      simp [hv]

/-- Per-column "A" totals over a cons. -/
theorem colTotalA_cons (r : List Cell) (m : List (List Cell)) (j : Nat) :
    colTotalA (r :: m) j =
      (if r.get? j == some (some "A") then 1 else 0) + colTotalA m j := by
  unfold colTotalA
  rw [List.map_cons, List.sum_cons]

end MES

namespace MES

/-- C1.  The 4.1 heading predicate and the 4.2 filter predicate are not the
same numeric test: on the Bom Qty text "2.5" the row is classified as a
heading (the dot defeats `isnumeric`) yet `pd.to_numeric` parses it, so that
heading row survives the filter. -/
theorem heading_and_filter_predicates_disagree :
    ¬ (isHeadingCell (some "2.5") = true ↔ toNumericOk "2.5" = false) := by
  decide

/-- C1 (amended).  The two numeric predicates agree on the common core: a Bom
Qty text that is a non-empty run of decimal digits is data for both, and a
text whose trim-then-strip is empty is a heading for both; outside that core
they diverge, as "2.5" (heading by 4.1, kept by 4.2) and "1 000" (data by 4.1,
dropped by 4.2) show. -/
theorem heading_and_filter_predicates_agree_on_core :
    (∀ s : String, s.data ≠ [] → s.data.all Char.isDigit = true →
      isHeadingCell (some s) = false ∧ toNumericOk s = true) ∧
    (∀ s : String, stripDashSpace (pyStripWS s) = "" →
      isHeadingCell (some s) = true ∧ toNumericOk s = false) ∧
    (isHeadingCell (some "2.5") = true ∧ toNumericOk "2.5" = true) ∧
    (isHeadingCell (some "1 000") = false ∧ toNumericOk "1 000" = false) := by
  refine ⟨?_, ?_, by decide, by decide⟩
  · intro s hne hall
    have hdig : ∀ c ∈ s.data, c.isDigit = true :=
      fun c hc => List.all_eq_true.mp hall c hc
    have hws : pyStripWS s = s :=
      pyStripWS_eq_self_of_no_ws s
        (fun c hc => isWhitespace_eq_false_of_isDigit c (hdig c hc))
    have hstrip : stripDashSpace s = s := by
      unfold stripDashSpace
      have hf : s.data.filter (fun c => !(c == '-' || c == ' ')) = s.data :=
        List.filter_eq_self.mpr (fun c hc => not_dash_space_of_isDigit c (hdig c hc))
      rw [hf, mk_data_eq]
    have hnum : isnumericPy s = true := by
      unfold isnumericPy
      rw [hall, Bool.and_true]
      cases hd : s.data with
      | nil => exact absurd hd hne
      | cons a r => rfl
    constructor
    · show (!isnumericPy (stripDashSpace (pyStripWS (pyStr (some s))))) = false
      rw [show pyStr (some s) = s from rfl, hws, hstrip, hnum]
      rfl
    · unfold toNumericOk
      rw [hws]
      have hsign : stripSign s.data = s.data := by
        cases hd : s.data with
        | nil => rfl
        | cons a r =>
          have ha : a.isDigit = true := hdig a (by rw [hd]; exact List.mem_cons_self a r)
          have hdef : stripSign (a :: r) = if a == '+' || a == '-' then r else a :: r := rfl
          rw [hdef, not_sign_of_isDigit a ha]
          rfl
      rw [hsign]
      unfold mantThenExp
      rw [takeWhile_eq_self_of_all s.data hdig, dropWhile_eq_nil_of_all s.data hdig]
      cases hd : s.data with
      | nil => exact absurd hd hne
      | cons a r => rfl
  · intro s h
    refine ⟨isHeadingCell_of_strip_empty (some s) h, ?_⟩
    apply toNumericOk_eq_false_of_no_digit
    intro c hc
    exact not_digit_of_dash_space c (all_dash_space_of_strip_empty (pyStripWS s) h c hc)

/-- C1 witness: the amended agreement at the concrete inputs "123" and "- -". -/
theorem heading_and_filter_agreement_witness :
    (isHeadingCell (some "123") = false ∧ toNumericOk "123" = true) ∧
    (isHeadingCell (some "- -") = true ∧ toNumericOk "- -" = false) :=
  ⟨heading_and_filter_predicates_agree_on_core.1 "123" (by decide) (by decide),
   heading_and_filter_predicates_agree_on_core.2.1 "- -" (by decide)⟩

/-- C2.  The program performs no column validation: on an upload lacking the
"Section" column the very first named-column access raises the pandas
KeyError, with no "required column not found" report anywhere. -/
theorem missing_column_raises_keyerror :
    runColumnAccesses tMissingSection = Except.error "KeyError: Section" := by
  rfl

/-- C3.  With zero Test-Stage columns detected the program still computes: the
detected column list is empty, every row's Available In is 0, and the pie
chart totals are both 0 — there is no "no test-stage columns found" state. -/
theorem no_test_columns_degenerate :
    testColumns tNoTestCols.cols = [] ∧
    (projTestCols tNoTestCols).map countA = [0, 0] ∧
    totalA tNoTestCols = 0 ∧ totalS tNoTestCols = 0 := by
  refine ⟨rfl, rfl, rfl, rfl⟩

/-- C8.  A row whose Bom Qty text strips (dashes and spaces removed) to the
empty string is always classified as a category heading by
`assign_categories`. -/
theorem bom_qty_strip_empty_is_heading (c : Cell)
    (h : stripDashSpace (pyStripWS (pyStr c)) = "") : isHeadingCell c = true :=
  isHeadingCell_of_strip_empty c h

/-- C8 witness: the Bom Qty text "--" strips to empty and is a heading. -/
theorem bom_qty_strip_empty_is_heading_witness :
    stripDashSpace (pyStripWS (pyStr (some "--"))) = "" ∧
      isHeadingCell (some "--") = true :=
  ⟨by decide, bom_qty_strip_empty_is_heading (some "--") (by decide)⟩

/-- C4.  After category assignment, a heading row's Category entry is
undefined, and any other row's Category entry is the uppercased trimmed
Nomenclature of the most recent heading row above it in original order,
undefined when no heading precedes it. -/
theorem assign_categories_most_recent_heading (rows : List Row) (i : Nat)
    (hi : i < rows.length) :
    (assign_categories rows).get? i =
      some (if headingAt rows i then none else catSpec rows i) := by
  have h := assignCategoriesAux_get rows none i hi
  unfold assign_categories
  rw [h]
  by_cases hh : headingAt rows i = true
  · simp [hh]
  · simp only [hh, Bool.false_eq_true, if_false, catSpec]
    cases hli : lastHeadingIdx rows i with
    | some j => rfl
    | none => rfl

/-- C4 witness: in the two-row example, the data row after the "Engine"
heading gets the heading's uppercased Nomenclature. -/
theorem assign_categories_most_recent_heading_witness :
    1 < rowsHeadingEx.length ∧
      (assign_categories rowsHeadingEx).get? 1 =
        some (if headingAt rowsHeadingEx 1 then none else catSpec rowsHeadingEx 1) :=
  ⟨by decide, assign_categories_most_recent_heading rowsHeadingEx 1 (by decide)⟩

/-- C10.  A heading row with a missing Nomenclature cell sets the current
category to "NAN" — the uppercase of Python's "nan" rendering — and every data
row below it, up to the next heading, receives Category "NAN". -/
theorem nan_heading_propagates (rows : List Row) (i j : Nat)
    (hij : i < j) (hj : j < rows.length)
    (hhead : headingAt rows i = true)
    (hnom : (rows.get? i).map Row.nomenclature = some none)
    (hb : ∀ k, i < k → k < j → headingAt rows k = false)
    (hdata : headingAt rows j = false) :
    (assign_categories rows).get? j = some (some "NAN") := by
  have hidx : lastHeadingIdx rows j = some i :=
    lastHeadingIdx_eq_of_between rows i hhead j hij hb
  have h := assignCategoriesAux_get rows none j hj
  unfold assign_categories
  rw [h, hdata, hidx]
  simp only [Bool.false_eq_true, if_false]
  cases hr : rows.get? i with
  | none => rw [hr] at hnom; simp at hnom
  | some r =>
    rw [hr] at hnom
    simp only [Option.map_some', Option.some.injEq] at hnom
    show some (headingLabel rows i) = some (some "NAN")
    have hlab : headingLabel rows i = some "NAN" := by
      unfold headingLabel
      rw [hr]
      simp only [Option.map_some']
      rw [hnom]
      decide
    rw [hlab]

/-- C10 witness: in the example whose heading row has a missing Nomenclature,
the following data row gets Category "NAN". -/
theorem nan_heading_propagates_witness :
    0 < 1 ∧ 1 < rowsNanEx.length ∧ headingAt rowsNanEx 0 = true ∧
      (rowsNanEx.get? 0).map Row.nomenclature = some none ∧
      headingAt rowsNanEx 1 = false ∧
      (assign_categories rowsNanEx).get? 1 = some (some "NAN") :=
  ⟨by decide, by decide, by decide, by decide, by decide,
   nan_heading_propagates rowsNanEx 0 1 (by decide) (by decide) (by decide)
     (by decide)
     (fun k hk1 hk2 =>
       absurd (Nat.lt_of_lt_of_le hk1 (Nat.le_of_lt_succ hk2)) (Nat.lt_irrefl 0))
     (by decide)⟩

/-- C9.  The drop-heading filter is idempotent: filtering an already filtered
table changes nothing. -/
theorem dropHeadingRows_idempotent (rows : List Row) :
    dropHeadingRows (dropHeadingRows rows) = dropHeadingRows rows := by
  unfold dropHeadingRows
  rw [List.filter_filter]
  simp

/-- C6.  Available Up To normalization yields the integer value of the first
contiguous digit run of the cell's text form (text = digit-free segment, digit
run, non-digit remainder), and a missing value when the text has no digit; in
particular "AP 25" gives 25, "AP100" gives 100, "N/A" and "" give missing. -/
theorem availUpToNorm_first_digit_run :
    (∀ a m b : List Char,
        (∀ c ∈ a, c.isDigit = false) → m ≠ [] → (∀ c ∈ m, c.isDigit = true) →
        (∀ c, b.head? = some c → c.isDigit = false) →
        availUpToNorm (some (String.mk (a ++ m ++ b))) = some (digitsToNat m)) ∧
    (∀ s : String, (∀ c ∈ s.data, c.isDigit = false) →
        availUpToNorm (some s) = none) ∧
    availUpToNorm (some "AP 25") = some 25 ∧
    availUpToNorm (some "AP100") = some 100 ∧
    availUpToNorm (some "N/A") = none ∧
    availUpToNorm (some "") = none := by
  refine ⟨?_, ?_, by decide, by decide, by decide, by decide⟩
  · intro a m b ha hm hmd hb
    unfold availUpToNorm
    have hd : (pyStr (some (String.mk (a ++ m ++ b)))).data = a ++ m ++ b := rfl
    rw [hd, List.append_assoc, extractDigits_append_of_no_digit a (m ++ b) ha]
    cases m with
    | nil => exact absurd rfl hm
    | cons c ms =>
      have hc : c.isDigit = true := hmd c (List.mem_cons_self c ms)
      simp only [List.cons_append, extractDigits, hc, if_true]
      simp only [List.append_eq]
      rw [takeWhile_append_of_all ms b
        (fun d hd' => hmd d (List.mem_cons_of_mem c hd'))]
      rw [takeWhile_eq_nil_of_head b hb, List.append_nil]
      rfl
  · intro s h
    unfold availUpToNorm
    show Option.map digitsToNat (extractDigits s.data) = none
    rw [extractDigits_eq_none_of_no_digit s.data h]
    rfl

/-- C6 witness: the decomposition "AP " / "25" / "" evaluates to 25. -/
theorem availUpToNorm_first_digit_run_witness :
    availUpToNorm (some (String.mk ("AP ".data ++ "25".data ++ "".data))) =
      some (digitsToNat "25".data) :=
  availUpToNorm_first_digit_run.1 "AP ".data "25".data "".data
    (by decide) (by decide) (by decide) (fun c hc => absurd hc (by simp))

/-- C7.  The sum over all rows of the per-row Available In count equals the
sum over all Test-Stage column indices of the per-column "A" totals, for any
rectangular matrix of Test-Stage cells. -/
theorem available_in_cross_check :
    ∀ (m : List (List Cell)) (n : Nat), (∀ r ∈ m, r.length = n) →
      sumAvailableIn m = sumColTotalsA m n
  | [], n, _ => by
    unfold sumAvailableIn sumColTotalsA
    have hz : colTotalA ([] : List (List Cell)) = fun _ => 0 := funext (fun j => rfl)
    rw [hz]
    simp
  | r :: m, n, h => by
    have hr : r.length = n := h r (List.mem_cons_self r m)
    have ih := available_in_cross_check m n
      (fun x hx => h x (List.mem_cons_of_mem r hx))
    unfold sumAvailableIn at ih ⊢
    unfold sumColTotalsA at ih ⊢
    rw [List.map_cons, List.sum_cons, ih]
    have heq : (List.range n).map (colTotalA (r :: m)) =
        (List.range n).map
          (fun j => (if r.get? j == some (some "A") then 1 else 0) + colTotalA m j) := by
      have hfun : colTotalA (r :: m) =
          fun j => (if r.get? j == some (some "A") then 1 else 0) + colTotalA m j :=
        funext (colTotalA_cons r m)
      rw [hfun]
    rw [heq, sum_map_add, ← hr, countA_eq_sum_range r]

/-- C7 witness: the cross-check at the concrete two-by-two matrix. -/
theorem available_in_cross_check_witness :
    sumAvailableIn matAvailEx = sumColTotalsA matAvailEx 2 :=
  available_in_cross_check matAvailEx 2 (by decide)

end MES

